import Mathlib

/-!
Shallow embedding of `src/main.rs` of the `raise` window-manager helper.

The program queries an external compositor (`hyprctl`) for the list of open
windows and the currently focused window, decides on exactly one action
(focus / move / launch), and issues it as a subprocess command.  We model the
external world by an `Env` record holding the results of the two queries and,
for every dispatch command, whether its `spawn` call succeeds.  `runMain`
re-traces `fn main` and returns the sequence of external interactions it
attempts (queries, dispatch commands, and the stderr message of the flag
guard) together with the process exit outcome.
-/

/-- A window as deserialized from `hyprctl clients -j`: a class and a unique
address (struct `Client`, `main.rs` lines 26-30).  `cls` stands for the Rust
field `class`, which is a reserved word in Lean. -/
structure Client where
  cls : String
  address : String
  deriving DecidableEq, Repr

/-- Command-line arguments (struct `Args`, `main.rs` lines 6-24): target class
(`-c`), launch command (`-e`), and the two placement switches `-m`
(`move_to_current`) and `-n` (`move_to_nearest_empty`). -/
structure Args where
  cls : String
  launch : String
  move_to_current : Bool
  move_to_nearest_empty : Bool
  deriving DecidableEq, Repr

/-- Result of running `hyprctl clients -j` (`main.rs` line 89).  `cmdFail` is
the `_` arm of the match on line 143: the spawn failed or the command exited
unsuccessfully.  `parseFail` means the command succeeded but its output failed
UTF-8 decoding or JSON parsing (lines 93-96, propagated with `?`).  `ok` means
the output parsed to a list of clients. -/
inductive ClientsQuery where
  | cmdFail
  | parseFail
  | ok (clients : List Client)
  deriving DecidableEq, Repr

/-- The external world for one invocation: the two query results and, for each
dispatch command, whether its `spawn` succeeds.  `activeWindow` is the parsed
result of `hyprctl activewindow -j`; `none` covers a failed spawn, a failed
parse, or no focused window (all become `Err` inside
`get_current_matching_window` and are absorbed by the `if let Ok` on
line 105). -/
structure Env where
  clientsQuery : ClientsQuery
  activeWindow : Option Client
  focusSpawnOk : String → Bool
  moveSpawnOk : String → Bool
  workspaceSpawnOk : Bool
  launchSpawnOk : Bool

/-- One attempted external interaction of `main`, in program order.  Spawn
failures still record the attempt; `eprintln` is the stderr line of the flag
guard. -/
inductive Event where
  | queryClients
  | queryActiveWindow
  | focusWindow (address : String)
  | moveToCurrent (address : String)
  | gotoNearestEmptyWorkspace
  | launch (cmd : String)
  | eprintln (msg : String)
  deriving DecidableEq, Repr

/-- How the process terminates: `ok` is exit status 0 (`Ok(())`), `error` is
the non-zero exit produced when `main` returns an `anyhow` error, and
`exitCode c` is an explicit `std::process::exit(c)`. -/
inductive Outcome where
  | ok
  | error
  | exitCode (code : Nat)
  deriving DecidableEq, Repr

/-- `get_current_matching_window` (`main.rs` lines 64-77): returns the focused
window iff the query succeeded, parsed, and its class equals the requested
class; every failure (and a class mismatch, line 75) is an `Err`, modelled as
`none`. -/
def get_current_matching_window (cls : String) (activeWindow : Option Client) :
    Option Client :=
  match activeWindow with
  | some client => if cls == client.cls then some client else none
  | none => none

/-- Rust's `Iterator::position` on a list of clients (`main.rs` line 107):
index of the first element satisfying the predicate. -/
def position (p : Client → Bool) : List Client → Option Nat
  | [] => none
  | c :: rest => if p c then some 0 else (position p rest).map (· + 1)

/-- `candidates.iter().cycle().skip(k).next()` (`main.rs` line 108): `none` on
an empty list, otherwise the element at index `k` modulo the length. -/
def cycleSkipNext (l : List Client) (k : Nat) : Option Client :=
  if l.isEmpty then none else l[k % l.length]?

/-- The stderr message of the mutually-exclusive-flags guard
(`main.rs` line 84). -/
def flagsErrMsg : String :=
  "Error: --move-to-current and --move-to-nearest-empty cannot be passed at the same time."

/-- `fn main` (`main.rs` lines 79-149), as a pure function from the parsed
arguments and the external environment to the trace of attempted external
interactions and the exit outcome.

Faithful points worth noting:
* the flag guard (lines 83-86) prints to stderr and exits 1 before any query;
* a failed or unsuccessful `hyprctl clients -j` falls through to
  `launch_command(&args)?` (lines 143-145), where the `?` makes a failed
  launch spawn fatal;
* a successful command whose output fails to decode or parse propagates the
  error with `?` (lines 93-96), so nothing further is attempted;
* in the cycling branch (lines 109-116) the workspace-switch result is
  discarded while the move/focus results carry `?`;
* in the no-matching-focus branch (lines 119-139) the whole `match` value is
  discarded by the trailing `;` on line 139, so every spawn result there is
  ignored and the program still exits 0. -/
def runMain (args : Args) (env : Env) : List Event × Outcome :=
  if args.move_to_current && args.move_to_nearest_empty then
    ([Event.eprintln flagsErrMsg], Outcome.exitCode 1)
  else
    match env.clientsQuery with
    | ClientsQuery.ok clients =>
      let candidates := clients.filter (fun client => client.cls == args.cls)
      match get_current_matching_window args.cls env.activeWindow with
      | some w =>
        match position (fun client => client.address == w.address) candidates with
        | some index =>
          match cycleSkipNext candidates (index + 1) with
          | some next_client =>
            if args.move_to_nearest_empty then
              ([Event.queryClients, Event.queryActiveWindow,
                Event.gotoNearestEmptyWorkspace,
                Event.moveToCurrent next_client.address],
               if env.moveSpawnOk next_client.address then Outcome.ok
               else Outcome.error)
            else if args.move_to_current then
              ([Event.queryClients, Event.queryActiveWindow,
                Event.moveToCurrent next_client.address],
               if env.moveSpawnOk next_client.address then Outcome.ok
               else Outcome.error)
            else
              ([Event.queryClients, Event.queryActiveWindow,
                Event.focusWindow next_client.address],
               if env.focusSpawnOk next_client.address then Outcome.ok
               else Outcome.error)
          | none => ([Event.queryClients, Event.queryActiveWindow], Outcome.ok)
        | none => ([Event.queryClients, Event.queryActiveWindow], Outcome.ok)
      | none =>
        match candidates.head? with
        | some c =>
          if args.move_to_nearest_empty then
            ([Event.queryClients, Event.queryActiveWindow,
              Event.gotoNearestEmptyWorkspace,
              Event.moveToCurrent c.address], Outcome.ok)
          else if args.move_to_current then
            ([Event.queryClients, Event.queryActiveWindow,
              Event.moveToCurrent c.address], Outcome.ok)
          else
            ([Event.queryClients, Event.queryActiveWindow,
              Event.focusWindow c.address], Outcome.ok)
        | none =>
          if args.move_to_nearest_empty then
            ([Event.queryClients, Event.queryActiveWindow,
              Event.gotoNearestEmptyWorkspace,
              Event.launch args.launch], Outcome.ok)
          else
            ([Event.queryClients, Event.queryActiveWindow,
              Event.launch args.launch], Outcome.ok)
    | ClientsQuery.cmdFail =>
      ([Event.queryClients, Event.launch args.launch],
       if env.launchSpawnOk then Outcome.ok else Outcome.error)
    | ClientsQuery.parseFail =>
      ([Event.queryClients], Outcome.error)

/-- The window address carried by a focus or move event, if any. -/
def evAddr : Event → Option String
  | Event.focusWindow a => some a
  | Event.moveToCurrent a => some a
  | _ => none

/-- The target address of a trace: the address of the first focus or move
command attempted in it. -/
def targetOf (trace : List Event) : Option String :=
  (trace.filterMap evAddr).head?

/-- The cycling step of lines 107-108 in isolation: from a focused window `w`,
the next client in the candidate cycle, or `none` when `w`'s address is not
among the candidates. -/
def decideNextClient (candidates : List Client) (w : Client) : Option Client :=
  match position (fun client => client.address == w.address) candidates with
  | some index => cycleSkipNext candidates (index + 1)
  | none => none

/-- Iterate `decideNextClient`, treating each chosen target as the new focused
window. -/
def iterDecide (candidates : List Client) : Nat → Client → Option Client
  | 0, w => some w
  | Nat.succ k, w =>
    match decideNextClient candidates w with
    | some w2 => iterDecide candidates k w2
    | none => none

/-- The target-selection part of `main` (lines 105-131) in isolation: the
address the program will focus or move, `none` when it launches instead
(lines 132-138) or silently no-ops on a stale focus (line 107, `position`
misses).  Structured exactly as the corresponding branches of `runMain`. -/
def selectTarget (cls : String) (clients : List Client)
    (focusedMatching : Option Client) : Option String :=
  let candidates := clients.filter (fun client => client.cls == cls)
  match focusedMatching with
  | some w =>
    match position (fun client => client.address == w.address) candidates with
    | some index => (cycleSkipNext candidates (index + 1)).map Client.address
    | none => none
  | none => candidates.head?.map Client.address

/-! ### Helper lemmas -/

theorem position_lt {p : Client → Bool} {l : List Client} {i : Nat}
    (h : position p l = some i) : i < l.length := by
  induction l generalizing i with
  | nil => simp [position] at h
  | cons a t ih =>
    simp only [position] at h
    by_cases hp : p a
    · simp [hp] at h
      simp only [List.length_cons]
      omega
    · simp [hp, Option.map_eq_some'] at h
      obtain ⟨j, hj, rfl⟩ := h
      have := ih hj
      simp only [List.length_cons]
      omega

theorem position_get {p : Client → Bool} {l : List Client} {i : Nat}
    (h : position p l = some i) :
    ∃ hl : i < l.length, p (l.get ⟨i, hl⟩) = true := by
  induction l generalizing i with
  | nil => simp [position] at h
  | cons a t ih =>
    simp only [position] at h
    by_cases hp : p a
    · simp [hp] at h
      refine ⟨by simp only [List.length_cons]; omega, ?_⟩
      simp [← h, hp]
    · simp [hp, Option.map_eq_some'] at h
      obtain ⟨j, hj, rfl⟩ := h
      obtain ⟨hl, hg⟩ := ih hj
      exact ⟨by simpa using Nat.succ_lt_succ hl, by simpa using hg⟩

theorem position_self {l : List Client} (hnd : (l.map Client.address).Nodup)
    {j : Nat} (hj : j < l.length) :
    position (fun c => c.address == (l.get ⟨j, hj⟩).address) l = some j := by
  induction l generalizing j with
  | nil => simp at hj
  | cons a t ih =>
    rw [List.map_cons, List.nodup_cons] at hnd
    obtain ⟨hna, hnt⟩ := hnd
    cases j with
    | zero => simp [position]
    | succ j =>
      have hj' : j < t.length := by simpa using Nat.lt_of_succ_lt_succ hj
      have hmem : (t.get ⟨j, hj'⟩).address ∈ t.map Client.address :=
        List.mem_map_of_mem _ (t.get_mem _ _)
      have hne : (a.address == (t.get ⟨j, hj'⟩).address) = false := by
        apply beq_eq_false_iff_ne.mpr
        intro he
        exact hna (he ▸ hmem)
      simp only [position, List.get_cons_succ, hne, if_neg Bool.false_ne_true]
      rw [ih hnt hj']
      rfl

theorem cycleSkipNext_of_ne_nil {l : List Client} (h : l ≠ []) (k : Nat) :
    cycleSkipNext l k = l[k % l.length]? := by
  simp [cycleSkipNext, List.isEmpty_eq_false.mpr h]

theorem cycleSkipNext_mem {l : List Client} {k : Nat} {c : Client}
    (h : cycleSkipNext l k = some c) : c ∈ l := by
  by_cases hl : l = []
  · subst hl; simp [cycleSkipNext] at h
  · rw [cycleSkipNext_of_ne_nil hl] at h
    exact List.getElem?_mem h

theorem decideNextClient_get {l : List Client}
    (hnd : (l.map Client.address).Nodup) {j : Nat} (hj : j < l.length) :
    decideNextClient l (l.get ⟨j, hj⟩) = l[(j + 1) % l.length]? := by
  have hl : l ≠ [] := by
    intro h
    subst h
    simp at hj
  unfold decideNextClient
  rw [position_self hnd hj]
  exact cycleSkipNext_of_ne_nil hl (j + 1)

theorem iterDecide_get {l : List Client} (hnd : (l.map Client.address).Nodup)
    (k : Nat) : ∀ {j : Nat} (hj : j < l.length),
    iterDecide l k (l.get ⟨j, hj⟩) = l[(j + k) % l.length]? := by
  induction k with
  | zero =>
    intro j hj
    simp [iterDecide, Nat.mod_eq_of_lt hj, List.getElem?_eq_getElem hj]
  | succ k ih =>
    intro j hj
    have hlen : 0 < l.length := Nat.lt_of_le_of_lt (Nat.zero_le _) hj
    have hj1 : (j + 1) % l.length < l.length := Nat.mod_lt _ hlen
    rw [iterDecide, decideNextClient_get hnd hj, List.getElem?_eq_getElem hj1]
    show iterDecide l k (l.get ⟨(j + 1) % l.length, hj1⟩) = _
    rw [ih hj1]
    congr 1
    rw [Nat.mod_add_mod]
    congr 1
    omega

/-- Bridge: when the two flags are not both set, the first focus/move address
in the trace of `runMain` is exactly `selectTarget` on the parsed client list,
and `none` when the window-list query does not produce one. -/
theorem targetOf_runMain (args : Args) (env : Env)
    (hflags : (args.move_to_current && args.move_to_nearest_empty) = false) :
    targetOf (runMain args env).1 =
      match env.clientsQuery with
      | ClientsQuery.ok clients =>
          selectTarget args.cls clients
            (get_current_matching_window args.cls env.activeWindow)
      | _ => none := by
  obtain ⟨cls, lcmd, mtc, mtn⟩ := args
  simp only at hflags
  cases env with
  | mk q aw fok mok wok lok =>
    cases q with
    | cmdFail => simp [runMain, hflags, targetOf, evAddr]
    | parseFail => simp [runMain, hflags, targetOf, evAddr]
    | ok clients =>
      simp only [runMain, hflags, Bool.false_eq_true, if_false, selectTarget]
      cases hf : get_current_matching_window cls aw with
      | some w =>
        cases hp : position (fun client => client.address == w.address)
            (clients.filter (fun client => client.cls == cls)) with
        | some index =>
          cases hc : cycleSkipNext
              (clients.filter (fun client => client.cls == cls)) (index + 1) with
          | some next_client =>
            cases mtc <;> cases mtn <;>
              simp_all [targetOf, evAddr]
          | none => simp_all [targetOf, evAddr]
        | none => simp_all [targetOf, evAddr]
      | none =>
        cases hh : (clients.filter (fun client => client.cls == cls)).head? with
        | some c =>
          cases mtc <;> cases mtn <;> simp_all [targetOf, evAddr]
        | none =>
          cases mtc <;> cases mtn <;> simp_all [targetOf, evAddr]

/-! ### Claim theorems -/

/-- C7: whenever both mutually exclusive placement flags are set, the program
prints an explicit error message to stderr and terminates with exit status 1,
before any external query or command is attempted (the trace holds nothing but
the stderr line). -/
theorem C7_flag_guard (args : Args) (env : Env)
    (hm : args.move_to_current = true) (hn : args.move_to_nearest_empty = true) :
    runMain args env = ([Event.eprintln flagsErrMsg], Outcome.exitCode 1) := by
  simp [runMain, hm, hn]

/-- Witness for C7 at a concrete invocation. -/
theorem C7_flag_guard_witness :
    runMain ⟨"firefox", "firefox", true, true⟩
        ⟨ClientsQuery.cmdFail, none, fun _ => true, fun _ => true, true, true⟩ =
      ([Event.eprintln flagsErrMsg], Outcome.exitCode 1) :=
  C7_flag_guard _ _ rfl rfl

/-- C4: stale focus is a no-op.  When the window-list query succeeds, the
focused window matches the target class, but its address is absent from the
candidate list, `main` issues no focus, move, or launch command and exits 0.
`runMain` is a pure function of the snapshot, so repeating the invocation on
the same snapshot literally returns the same no-op. -/
theorem C4_stale_focus_noop (args : Args) (env : Env) (clients : List Client)
    (w : Client)
    (hflags : (args.move_to_current && args.move_to_nearest_empty) = false)
    (henv : env.clientsQuery = ClientsQuery.ok clients)
    (hfoc : get_current_matching_window args.cls env.activeWindow = some w)
    (hmiss : position (fun client => client.address == w.address)
        (clients.filter (fun client => client.cls == args.cls)) = none) :
    runMain args env = ([Event.queryClients, Event.queryActiveWindow], Outcome.ok) := by
  simp [runMain, hflags, henv, hfoc, hmiss]

/-- Witness for C4: one candidate of the class, focused window of the class at
an address not in the list. -/
theorem C4_stale_focus_noop_witness :
    runMain ⟨"f", "app", false, false⟩
        ⟨ClientsQuery.ok [⟨"f", "1"⟩], some ⟨"f", "9"⟩,
          fun _ => true, fun _ => true, true, true⟩ =
      ([Event.queryClients, Event.queryActiveWindow], Outcome.ok) :=
  C4_stale_focus_noop _ _ [⟨"f", "1"⟩] ⟨"f", "9"⟩ rfl rfl (by decide) (by decide)

/-- C5 counterexample: with candidates `[{class f, address 1}]` and a focused
window of class `f` at the stale address `9`, the claim predicts the decision
targets `candidates[0]` (address `"1"`); the program instead selects no target
and issues no command at all. -/
theorem C5_counterexample :
    targetOf (runMain ⟨"f", "app", false, false⟩
        ⟨ClientsQuery.ok [⟨"f", "1"⟩], some ⟨"f", "9"⟩,
          fun _ => true, fun _ => true, true, true⟩).1 ≠ some "1" ∧
    (runMain ⟨"f", "app", false, false⟩
        ⟨ClientsQuery.ok [⟨"f", "1"⟩], some ⟨"f", "9"⟩,
          fun _ => true, fun _ => true, true, true⟩).1 =
      [Event.queryClients, Event.queryActiveWindow] := by
  decide

/-- C5 amended: when the focused window has the target class but its address
does not appear in the candidate list, cycling degenerates to no action: no
target is selected and the process exits 0 (it does not focus
`candidates[0]`). -/
theorem C5_stale_focus_no_target (args : Args) (env : Env) (clients : List Client)
    (w : Client)
    (hflags : (args.move_to_current && args.move_to_nearest_empty) = false)
    (henv : env.clientsQuery = ClientsQuery.ok clients)
    (hfoc : get_current_matching_window args.cls env.activeWindow = some w)
    (hmiss : position (fun client => client.address == w.address)
        (clients.filter (fun client => client.cls == args.cls)) = none) :
    targetOf (runMain args env).1 = none ∧ (runMain args env).2 = Outcome.ok := by
  constructor
  · rw [targetOf_runMain args env hflags, henv]
    simp [selectTarget, hfoc, hmiss]
  · simp [runMain, hflags, henv, hfoc, hmiss]

/-- Witness for the amended C5 at a concrete stale snapshot. -/
theorem C5_stale_focus_no_target_witness :
    targetOf (runMain ⟨"g", "app", false, false⟩
        ⟨ClientsQuery.ok [⟨"g", "1"⟩, ⟨"g", "2"⟩], some ⟨"g", "7"⟩,
          fun _ => true, fun _ => true, true, true⟩).1 = none ∧
    (runMain ⟨"g", "app", false, false⟩
        ⟨ClientsQuery.ok [⟨"g", "1"⟩, ⟨"g", "2"⟩], some ⟨"g", "7"⟩,
          fun _ => true, fun _ => true, true, true⟩).2 = Outcome.ok :=
  C5_stale_focus_no_target _ _ [⟨"g", "1"⟩, ⟨"g", "2"⟩] ⟨"g", "7"⟩ rfl rfl
    (by decide) (by decide)

/-- C6: with an empty candidate list and no matching focused window the
decision is Launch in all three placement modes; the nearest-empty mode first
switches to the nearest empty workspace, and the to-current-workspace flag has
no effect on the launch (its trace equals the normal one). -/
theorem C6_no_candidates_launch (cls lcmd : String) (env : Env)
    (clients : List Client)
    (henv : env.clientsQuery = ClientsQuery.ok clients)
    (hfoc : get_current_matching_window cls env.activeWindow = none)
    (hcand : clients.filter (fun client => client.cls == cls) = []) :
    runMain ⟨cls, lcmd, false, false⟩ env =
      ([Event.queryClients, Event.queryActiveWindow, Event.launch lcmd],
        Outcome.ok) ∧
    runMain ⟨cls, lcmd, true, false⟩ env =
      ([Event.queryClients, Event.queryActiveWindow, Event.launch lcmd],
        Outcome.ok) ∧
    runMain ⟨cls, lcmd, false, true⟩ env =
      ([Event.queryClients, Event.queryActiveWindow,
        Event.gotoNearestEmptyWorkspace, Event.launch lcmd], Outcome.ok) := by
  refine ⟨?_, ?_, ?_⟩ <;> simp [runMain, henv, hfoc, hcand]

/-- Witness for C6 on an empty window list. -/
theorem C6_no_candidates_launch_witness :
    runMain ⟨"f", "app", false, false⟩
        ⟨ClientsQuery.ok [], none, fun _ => true, fun _ => true, true, true⟩ =
      ([Event.queryClients, Event.queryActiveWindow, Event.launch "app"],
        Outcome.ok) ∧
    runMain ⟨"f", "app", true, false⟩
        ⟨ClientsQuery.ok [], none, fun _ => true, fun _ => true, true, true⟩ =
      ([Event.queryClients, Event.queryActiveWindow, Event.launch "app"],
        Outcome.ok) ∧
    runMain ⟨"f", "app", false, true⟩
        ⟨ClientsQuery.ok [], none, fun _ => true, fun _ => true, true, true⟩ =
      ([Event.queryClients, Event.queryActiveWindow,
        Event.gotoNearestEmptyWorkspace, Event.launch "app"], Outcome.ok) :=
  C6_no_candidates_launch "f" "app" _ [] rfl rfl rfl

/-- C2 counterexample: when `hyprctl clients -j` runs successfully but its
output fails to parse, the program does not fall back to Launch — it
propagates the error and exits non-zero, issuing no launch command. -/
theorem C2_counterexample :
    (runMain ⟨"f", "app", false, false⟩
        ⟨ClientsQuery.parseFail, none, fun _ => true, fun _ => true, true, true⟩).2 =
      Outcome.error ∧
    Event.launch "app" ∉ (runMain ⟨"f", "app", false, false⟩
        ⟨ClientsQuery.parseFail, none, fun _ => true, fun _ => true, true, true⟩).1 := by
  decide

/-- C2 amended: if the window-list query command cannot be run or exits
unsuccessfully, the program falls back to the Launch action (fatal only if the
launch spawn itself fails); but if the command succeeds and its output fails
to parse, the error is propagated — the program exits non-zero without
launching. -/
theorem C2_query_failure_split :
    (∀ (args : Args) (env : Env),
      (args.move_to_current && args.move_to_nearest_empty) = false →
      env.clientsQuery = ClientsQuery.cmdFail →
      (runMain args env).1 = [Event.queryClients, Event.launch args.launch] ∧
      (runMain args env).2 =
        (if env.launchSpawnOk then Outcome.ok else Outcome.error)) ∧
    (∀ (args : Args) (env : Env),
      (args.move_to_current && args.move_to_nearest_empty) = false →
      env.clientsQuery = ClientsQuery.parseFail →
      (runMain args env).1 = [Event.queryClients] ∧
      (runMain args env).2 = Outcome.error) := by
  constructor <;>
    · intro args env hflags hq
      constructor <;> simp [runMain, hflags, hq]

/-- Witness for the amended C2: a failed query command launches; a parse
failure errors out without launching. -/
theorem C2_query_failure_split_witness :
    ((runMain ⟨"f", "app", false, false⟩
        ⟨ClientsQuery.cmdFail, none, fun _ => true, fun _ => true, true, true⟩).1 =
      [Event.queryClients, Event.launch "app"] ∧
     (runMain ⟨"f", "app", false, false⟩
        ⟨ClientsQuery.cmdFail, none, fun _ => true, fun _ => true, true, true⟩).2 =
      (if true then Outcome.ok else Outcome.error)) ∧
    ((runMain ⟨"f", "app", false, false⟩
        ⟨ClientsQuery.parseFail, none, fun _ => true, fun _ => true, true, true⟩).1 =
      [Event.queryClients] ∧
     (runMain ⟨"f", "app", false, false⟩
        ⟨ClientsQuery.parseFail, none, fun _ => true, fun _ => true, true, true⟩).2 =
      Outcome.error) :=
  ⟨C2_query_failure_split.1 _ _ rfl rfl, C2_query_failure_split.2 _ _ rfl rfl⟩

/-- C1: cycling rule.  When the window-list query succeeds, the focused window
matches the target class, and its address occurs in the candidate list at
(first) position `i`, the decided target is `candidates[(i + 1) mod n]`; in
particular when `n = 1` the target is the focused window itself. -/
theorem C1_cycling_rule (args : Args) (env : Env) (clients : List Client)
    (w : Client) (i : Nat)
    (hflags : (args.move_to_current && args.move_to_nearest_empty) = false)
    (henv : env.clientsQuery = ClientsQuery.ok clients)
    (hfoc : get_current_matching_window args.cls env.activeWindow = some w)
    (hfind : position (fun client => client.address == w.address)
        (clients.filter (fun client => client.cls == args.cls)) = some i) :
    targetOf (runMain args env).1 =
      ((clients.filter (fun client => client.cls == args.cls))[(i + 1) %
        (clients.filter (fun client => client.cls == args.cls)).length]?).map
        Client.address ∧
    ((clients.filter (fun client => client.cls == args.cls)).length = 1 →
      targetOf (runMain args env).1 = some w.address) := by
  set candidates := clients.filter (fun client => client.cls == args.cls)
    with hcand
  have hne : candidates ≠ [] := by
    intro h
    rw [h] at hfind
    simp [position] at hfind
  have hmain : targetOf (runMain args env).1 =
      (cycleSkipNext candidates (i + 1)).map Client.address := by
    rw [targetOf_runMain args env hflags, henv]
    simp only [selectTarget, hfoc, ← hcand, hfind]
  refine ⟨by rw [hmain, cycleSkipNext_of_ne_nil hne], ?_⟩
  intro h1
  have hi : i < candidates.length := position_lt hfind
  have hi0 : i = 0 := by omega
  subst hi0
  obtain ⟨hl, hg⟩ := position_get hfind
  have ha : (candidates.get ⟨0, hl⟩).address = w.address := eq_of_beq hg
  have h01 : (0 + 1) % candidates.length = 0 := by rw [h1]
  rw [hmain, cycleSkipNext_of_ne_nil hne, h01, List.getElem?_eq_getElem hl]
  simp only [List.get_eq_getElem] at ha
  simp [ha]

/-- Witness for C1 on the spec scenario: candidates of addresses `1, 2, 3`,
focused at `2`, so the target is address `3` (and the degenerate `n = 1`
conjunct holds vacuously). -/
theorem C1_cycling_rule_witness :
    targetOf (runMain ⟨"f", "app", false, false⟩
        ⟨ClientsQuery.ok [⟨"f", "1"⟩, ⟨"f", "2"⟩, ⟨"f", "3"⟩], some ⟨"f", "2"⟩,
          fun _ => true, fun _ => true, true, true⟩).1 =
      ((([⟨"f", "1"⟩, ⟨"f", "2"⟩, ⟨"f", "3"⟩] : List Client).filter
          (fun client => client.cls == "f"))[(1 + 1) %
        (([⟨"f", "1"⟩, ⟨"f", "2"⟩, ⟨"f", "3"⟩] : List Client).filter
          (fun client => client.cls == "f")).length]?).map Client.address ∧
    ((([⟨"f", "1"⟩, ⟨"f", "2"⟩, ⟨"f", "3"⟩] : List Client).filter
        (fun client => client.cls == "f")).length = 1 →
      targetOf (runMain ⟨"f", "app", false, false⟩
          ⟨ClientsQuery.ok [⟨"f", "1"⟩, ⟨"f", "2"⟩, ⟨"f", "3"⟩], some ⟨"f", "2"⟩,
            fun _ => true, fun _ => true, true, true⟩).1 = some "2") :=
  C1_cycling_rule ⟨"f", "app", false, false⟩ _
    [⟨"f", "1"⟩, ⟨"f", "2"⟩, ⟨"f", "3"⟩] ⟨"f", "2"⟩ 1 rfl rfl (by decide)
    (by decide)

/-- C8: cycling is a permutation.  Over a candidate list with pairwise
distinct addresses, iterating "decide the next target, then treat it as the
new focus" `n` times from the window at any index `i` returns to that same
window. -/
theorem C8_cycling_permutation (candidates : List Client)
    (hnd : (candidates.map Client.address).Nodup) (i : Nat)
    (hi : i < candidates.length) :
    iterDecide candidates candidates.length (candidates.get ⟨i, hi⟩) =
      some (candidates.get ⟨i, hi⟩) := by
  rw [iterDecide_get hnd candidates.length hi, Nat.add_mod_right,
    Nat.mod_eq_of_lt hi, List.getElem?_eq_getElem hi]
  simp [List.get_eq_getElem]

/-- Witness for C8: three distinct addresses, starting at index 1, three steps
return to the start. -/
theorem C8_cycling_permutation_witness :
    (([⟨"f", "1"⟩, ⟨"f", "2"⟩, ⟨"f", "3"⟩] : List Client).map
      Client.address).Nodup ∧
    iterDecide [⟨"f", "1"⟩, ⟨"f", "2"⟩, ⟨"f", "3"⟩]
        ([⟨"f", "1"⟩, ⟨"f", "2"⟩, ⟨"f", "3"⟩] : List Client).length
        (([⟨"f", "1"⟩, ⟨"f", "2"⟩, ⟨"f", "3"⟩] : List Client).get ⟨1, by decide⟩) =
      some (([⟨"f", "1"⟩, ⟨"f", "2"⟩, ⟨"f", "3"⟩] : List Client).get
        ⟨1, by decide⟩) :=
  ⟨by decide, C8_cycling_permutation [⟨"f", "1"⟩, ⟨"f", "2"⟩, ⟨"f", "3"⟩]
    (by decide) 1 (by decide)⟩

/-- C9: placement is orthogonal to target selection.  For any fixed snapshot,
the address of the first focus/move command attempted by `main` is identical
under the normal, to-current-workspace, and to-nearest-empty-workspace flag
settings; only the kind of command issued on it differs. -/
theorem C9_placement_orthogonal (cls lcmd : String) (env : Env) :
    targetOf (runMain ⟨cls, lcmd, false, false⟩ env).1 =
      targetOf (runMain ⟨cls, lcmd, true, false⟩ env).1 ∧
    targetOf (runMain ⟨cls, lcmd, false, false⟩ env).1 =
      targetOf (runMain ⟨cls, lcmd, false, true⟩ env).1 := by
  constructor
  · rw [targetOf_runMain ⟨cls, lcmd, false, false⟩ env rfl,
      targetOf_runMain ⟨cls, lcmd, true, false⟩ env rfl]
  · rw [targetOf_runMain ⟨cls, lcmd, false, false⟩ env rfl,
      targetOf_runMain ⟨cls, lcmd, false, true⟩ env rfl]

/-- C3 counterexample: with no matching focused window and one candidate, the
focus dispatch fails (`focusSpawnOk` is constantly false) yet the process
exits 0: the failure is silently ignored, not fatal. -/
theorem C3_counterexample :
    Event.focusWindow "1" ∈ (runMain ⟨"f", "app", false, false⟩
        ⟨ClientsQuery.ok [⟨"f", "1"⟩], none,
          fun _ => false, fun _ => false, true, true⟩).1 ∧
    (fun (_ : String) => false) "1" = false ∧
    (runMain ⟨"f", "app", false, false⟩
        ⟨ClientsQuery.ok [⟨"f", "1"⟩], none,
          fun _ => false, fun _ => false, true, true⟩).2 = Outcome.ok := by
  decide

/-- C3 amended: a dispatch failure is fatal (non-zero exit) exactly in the
cycling branch — the focus or move issued after a matched focused window — and
for the launch fallback when the window-list query fails; in the
no-matching-focus branch every dispatch result (focus or move of the first
candidate, launch, workspace switch) is discarded and the process exits 0 even
when the command fails. -/
theorem C3_dispatch_failure_split :
    (∀ (args : Args) (env : Env) (clients : List Client) (w : Client)
        (index : Nat) (next_client : Client),
      (args.move_to_current && args.move_to_nearest_empty) = false →
      env.clientsQuery = ClientsQuery.ok clients →
      get_current_matching_window args.cls env.activeWindow = some w →
      position (fun client => client.address == w.address)
        (clients.filter (fun client => client.cls == args.cls)) = some index →
      cycleSkipNext (clients.filter (fun client => client.cls == args.cls))
        (index + 1) = some next_client →
      (runMain args env).2 =
        (if (if args.move_to_nearest_empty || args.move_to_current then
            env.moveSpawnOk next_client.address
          else env.focusSpawnOk next_client.address) then Outcome.ok
         else Outcome.error)) ∧
    (∀ (args : Args) (env : Env),
      (args.move_to_current && args.move_to_nearest_empty) = false →
      env.clientsQuery = ClientsQuery.cmdFail →
      (runMain args env).2 =
        (if env.launchSpawnOk then Outcome.ok else Outcome.error)) ∧
    (∀ (args : Args) (env : Env) (clients : List Client),
      (args.move_to_current && args.move_to_nearest_empty) = false →
      env.clientsQuery = ClientsQuery.ok clients →
      get_current_matching_window args.cls env.activeWindow = none →
      (runMain args env).2 = Outcome.ok) := by
  refine ⟨?_, ?_, ?_⟩
  · intro args env clients w index next_client hflags henv hfoc hp hc
    obtain ⟨cls, lcmd, mtc, mtn⟩ := args
    simp only at hflags hfoc hp hc ⊢
    cases mtc <;> cases mtn <;> simp_all [runMain]
  · intro args env hflags hq
    simp [runMain, hflags, hq]
  · intro args env clients hflags henv hfoc
    obtain ⟨cls, lcmd, mtc, mtn⟩ := args
    simp only at hflags hfoc
    rcases hfl : clients.filter (fun client => client.cls == cls) with _ | ⟨c, rest⟩ <;>
      cases mtc <;> cases mtn <;> simp_all [runMain] <;>
      (cases List.find? (fun client => client.cls == cls) clients <;> rfl)

/-- Witness for the amended C3: a failing focus spawn in the cycling branch is
fatal, a failing launch spawn after a failed query is fatal, and a failing
focus spawn in the no-matching-focus branch is ignored. -/
theorem C3_dispatch_failure_split_witness :
    ((runMain ⟨"f", "app", false, false⟩
        ⟨ClientsQuery.ok [⟨"f", "1"⟩], some ⟨"f", "1"⟩,
          fun _ => false, fun _ => false, true, true⟩).2 =
      (if (if false || false then (fun (_ : String) => false) "1"
        else (fun (_ : String) => false) "1") then Outcome.ok
       else Outcome.error)) ∧
    ((runMain ⟨"f", "app", false, false⟩
        ⟨ClientsQuery.cmdFail, none,
          fun _ => true, fun _ => true, true, false⟩).2 =
      (if false then Outcome.ok else Outcome.error)) ∧
    ((runMain ⟨"f", "app", false, false⟩
        ⟨ClientsQuery.ok [⟨"f", "1"⟩], none,
          fun _ => false, fun _ => false, true, true⟩).2 = Outcome.ok) :=
  ⟨C3_dispatch_failure_split.1 _ _ [⟨"f", "1"⟩] ⟨"f", "1"⟩ 0 ⟨"f", "1"⟩ rfl rfl
      (by decide) (by decide) (by decide),
   C3_dispatch_failure_split.2.1 _ _ rfl rfl,
   C3_dispatch_failure_split.2.2 _ _ [⟨"f", "1"⟩] rfl rfl (by decide)⟩

/-- C10: every focus or move command `main` attempts targets the address of a
window present in the queried window list whose class equals the requested
class; no focus or move is ever issued on an address outside the candidate
set. -/
theorem C10_focus_move_in_candidates (args : Args) (env : Env)
    (clients : List Client) (a : String)
    (henv : env.clientsQuery = ClientsQuery.ok clients)
    (hmem : Event.focusWindow a ∈ (runMain args env).1 ∨
      Event.moveToCurrent a ∈ (runMain args env).1) :
    a ∈ (clients.filter (fun client => client.cls == args.cls)).map
      Client.address := by
  by_cases hflags : (args.move_to_current && args.move_to_nearest_empty) = true
  · simp [runMain, hflags] at hmem
  · simp only [Bool.not_eq_true] at hflags
    obtain ⟨cls, lcmd, mtc, mtn⟩ := args
    simp only at hflags hmem ⊢
    cases hf : get_current_matching_window cls env.activeWindow with
    | some w =>
      cases hp : position (fun client => client.address == w.address)
          (clients.filter (fun client => client.cls == cls)) with
      | some index =>
        cases hc : cycleSkipNext
            (clients.filter (fun client => client.cls == cls)) (index + 1) with
        | some next_client =>
          have hnmem := cycleSkipNext_mem hc
          have hsub : a = next_client.address := by
            cases mtc <;> cases mtn <;> simp_all [runMain]
          rw [hsub]
          exact List.mem_map_of_mem _ hnmem
        | none => cases mtc <;> cases mtn <;> simp_all [runMain]
      | none => cases mtc <;> cases mtn <;> simp_all [runMain]
    | none =>
      cases hfind : List.find? (fun client => client.cls == cls) clients with
      | some c =>
        have hc1 : c ∈ clients := List.mem_of_find?_eq_some hfind
        have hc2 := List.find?_some hfind
        have hsub : a = c.address := by
          cases mtc <;> cases mtn <;> simp_all [runMain]
        rw [hsub]
        exact List.mem_map_of_mem _ (List.mem_filter.mpr ⟨hc1, hc2⟩)
      | none =>
        cases mtc <;> cases mtn <;>
          first
          | exact absurd hflags (by decide)
          | simp [runMain, henv, hf, hfind] at hmem

/-- Witness for C10: a single candidate whose focus is attempted; its address
is in the candidate set. -/
theorem C10_focus_move_in_candidates_witness :
    "1" ∈ (([⟨"f", "1"⟩] : List Client).filter
      (fun client => client.cls == "f")).map Client.address :=
  C10_focus_move_in_candidates ⟨"f", "app", false, false⟩
    ⟨ClientsQuery.ok [⟨"f", "1"⟩], none, fun _ => true, fun _ => true, true, true⟩
    [⟨"f", "1"⟩] "1" rfl (Or.inl (by decide))
